import Mathlib

/-!
Verification of the muza-back streaming / upload / like endpoints
(`app/routers/songs.py`, `app/models.py`) against their natural-language
specification.

Bytes are modelled as `Nat`, byte strings and file contents as `List Nat`.
Python `int` values are modelled as `Int` (Python integers are unbounded).
The on-disk state is a partial map from paths to contents.  Header strings
are modelled over their character lists (ASCII, as HTTP header values are).
-/

namespace Muza

/-! ## The chunked file streaming generator (`stream_file`, songs.py 124-135) -/

/-- The constant `CHUNK_SIZE = 1024 * 1024  # 1MB chunks` (songs.py line 24). -/
def CHUNK_SIZE : Nat := 1024 * 1024

/-- Reading `n` bytes from a file positioned at byte offset `pos`: returns up
to `n` bytes starting at offset `pos`, and the empty string at or past
end-of-file. -/
def readAt (file : List Nat) (pos n : Nat) : List Nat :=
  (file.drop pos).take n

/-- The loop guard of `stream_file`:
`if end is not None and start >= end: break`. -/
def atEnd (endExcl : Option Nat) (cur : Nat) : Bool :=
  match endExcl with
  | some e => e ≤ cur
  | none => false

/-- The byte count requested from each read:
`min(CHUNK_SIZE, end - start if end is not None else CHUNK_SIZE)`. -/
def reqLen (endExcl : Option Nat) (cur : Nat) : Nat :=
  match endExcl with
  | some e => min CHUNK_SIZE (e - cur)
  | none => CHUNK_SIZE

/-- The loop of `stream_file`, with explicit fuel so that the function is
structurally recursive (the wrapper below supplies fuel that is proven
sufficient): check the guard, read `reqLen` bytes, stop on an empty read,
otherwise yield the chunk and advance the cursor by its actual length. -/
def streamLoop (file : List Nat) (endExcl : Option Nat) :
    Nat → Nat → List (List Nat)
  | 0, _ => []
  | fuel + 1, cur =>
    if atEnd endExcl cur then []
    else
      let chunk := readAt file cur (reqLen endExcl cur)
      if chunk = [] then []
      else chunk :: streamLoop file endExcl fuel (cur + chunk.length)

/-- The generator `stream_file(file_path, start, end)` (songs.py 124-135):
seek to `start`, then repeatedly read `min(CHUNK_SIZE, end - start)` bytes,
stopping on an empty read or once the cursor reaches the exclusive bound
`end`.  The result is the list of yielded chunks of a complete run in which
each read returns the full `min(requested, available)` bytes.  Every yield
advances the cursor by at least one, and only happens with the cursor inside
the file, so `file.length + 1` rounds of fuel always suffice. -/
def stream_file (file : List Nat) (cur : Nat) (endExcl : Option Nat) :
    List (List Nat) :=
  streamLoop file endExcl (file.length + 1) cur

/-- A complete run of the `stream_file` loop in which each read may return
any number of bytes up to the requested count (short reads included): the
cursor starts at `cur`; at each round the loop either stops because the guard
`start >= end` fires, or the read comes back empty (cursor at or past
end-of-file), or a non-empty prefix of at most the requested `reqLen` bytes
at the cursor is yielded and the cursor advances by its length.  This is the
generator's behavior under an arbitrary chunking of the reads. -/
inductive IsStream (file : List Nat) (endExcl : Option Nat) :
    Nat → List (List Nat) → Prop where
  | stop (cur : Nat) (h : atEnd endExcl cur = true) :
      IsStream file endExcl cur []
  | eof (cur k : Nat) (hk : k ≤ reqLen endExcl cur)
      (h : readAt file cur k = []) :
      IsStream file endExcl cur []
  | step (cur k : Nat) (hend : atEnd endExcl cur = false)
      (hk : k ≤ reqLen endExcl cur) (hne : readAt file cur k ≠ [])
      (rest : List (List Nat))
      (hrest : IsStream file endExcl (cur + (readAt file cur k).length) rest) :
      IsStream file endExcl cur (readAt file cur k :: rest)

/-! ## Python string primitives used by the range parser

`stream_song` parses the `range` value with
`range.replace('bytes=', '').split('-')` followed by `int(...)` on the
parts.  The models below follow CPython semantics on ASCII text: `replace`
removes every non-overlapping occurrence left to right, `split('-')` splits
at every dash (keeping empty parts), and `int(s)` strips surrounding
whitespace, accepts one optional sign, and then a non-empty digit string in
which underscores may appear between digits; anything else raises
`ValueError` (modelled as `none`). -/

/-- Python `s.replace('bytes=', '')`: delete every occurrence of the literal
`bytes=`, scanning left to right. -/
def stripBytesEq : List Char → List Char
  | 'b' :: 'y' :: 't' :: 'e' :: 's' :: '=' :: rest => stripBytesEq rest
  | c :: rest => c :: stripBytesEq rest
  | [] => []

/-- Python `s.split('-')`: split at every dash; always at least one part,
and empty parts are kept. -/
def pySplitDash : List Char → List (List Char)
  | [] => [[]]
  | c :: rest =>
    match pySplitDash rest with
    | [] => [[c]]
    | p :: ps => if c = '-' then [] :: p :: ps else (c :: p) :: ps

/-- After the leading digit of an `int()` literal: every later character is a
digit, or an underscore that sits between two digits. -/
def pyDigitsTail : List Char → Bool
  | [] => true
  | ['_'] => false
  | '_' :: d :: r => d.isDigit && pyDigitsTail r
  | c :: r => c.isDigit && pyDigitsTail r

/-- A valid unsigned `int()` digit string: non-empty, starts with a digit,
rest as in `pyDigitsTail`. -/
def pyDigits : List Char → Bool
  | [] => false
  | c :: rest => c.isDigit && pyDigitsTail rest

/-- Numeric value of a digit string, ignoring the underscore separators. -/
def digitsVal (ds : List Char) : Nat :=
  (ds.filter (fun c => c != '_')).foldl (fun a c => a * 10 + (c.toNat - 48)) 0

/-- Python `s.strip()` as performed by `int()`: drop whitespace from both
ends. -/
def pyStrip (s : List Char) : List Char :=
  ((s.dropWhile Char.isWhitespace).reverse.dropWhile Char.isWhitespace).reverse

/-- Python `int(s)`: `none` models a raised `ValueError`. -/
def pyInt (s : List Char) : Option Int :=
  match pyStrip s with
  | '+' :: rest => if pyDigits rest then some (digitsVal rest : Int) else none
  | '-' :: rest => if pyDigits rest then some (-(digitsVal rest : Int)) else none
  | t => if pyDigits t then some (digitsVal t : Int) else none

/-! ## The streaming endpoint (`stream_song`, songs.py 384-434) -/

/-- Outcome of the range-parsing block of `stream_song` (songs.py 403-410):
`valueError` models an `int()` failure, caught by `except ValueError` and
turned into HTTP 400; `indexError` models the uncaught `IndexError` raised
by `range_header[1]` when the split produced fewer than two parts. -/
inductive RangeParse where
  | valueError
  | indexError
  | ok (start : Int) (endv : Option Int)
deriving DecidableEq, Repr

/-- The parsing block:
`range_header = range.replace('bytes=', '').split('-')`;
`start = int(range_header[0])`;
`if range_header[1]: end = int(range_header[1])` — an empty second part is
falsy and leaves the default end in place; a missing second part raises
`IndexError`, which the surrounding `except ValueError` does not catch. -/
def parse_range (r : List Char) : RangeParse :=
  match pySplitDash (stripBytesEq r) with
  | [] => .indexError
  | p0 :: rest =>
    match pyInt p0 with
    | none => .valueError
    | some s =>
      match rest with
      | [] => .indexError
      | p1 :: _ =>
        if p1 = [] then .ok s none
        else
          match pyInt p1 with
          | none => .valueError
          | some e => .ok s (some e)

/-- The `Song` database record, restricted to the columns `stream_song`
reads (`models.py`: `file_path`). -/
structure Song where
  file_path : String
deriving DecidableEq

/-- A successful `StreamingResponse`: the numeric fields of the
`Content-Length` and `Content-Range: bytes <start>-<end>/<total>` headers,
and the generator's chunks as the body.  (`Accept-Ranges`/`Content-Type`
are constant or cosmetic and not claimed about, so not modelled.) -/
structure StreamOk where
  contentLength : Int
  rangeStart : Int
  rangeEnd : Int
  rangeTotal : Int
  body : List (List Nat)
deriving DecidableEq

/-- Result of a request to `GET /songs/{song_id}/stream`: an
`HTTPException` with status 404 or 400 and its detail string, an uncaught
Python exception (surfaced by the framework as a 500 server error), or a
streaming response. -/
inductive StreamResult where
  | notFound (detail : String)
  | badRequest (detail : String)
  | internalError
  | ok (r : StreamOk)
deriving DecidableEq

/-- The endpoint `stream_song` (songs.py 384-434).  `song?` is the result of
the database lookup by id; `disk` maps paths to file contents (`none` when
`os.path.exists` is false).  Steps, in source order: 404 "Song not found" on
a missing record; 404 "Song file not found" on a missing file; defaults
`start = 0`, `end = file_size - 1`; if a range value is present and truthy
(non-empty), parse it — `ValueError` becomes 400 "Invalid range header",
the `IndexError` of a dash-less value propagates; finally respond with
`Content-Length = end - start + 1`, `Content-Range: bytes start-end/size`
and body `stream_file(path, start, end + 1)`.  Parsed bounds are
non-negative (every dash of the value acts as a separator, so the parts
`int()` sees carry no minus sign), hence the `Int.toNat` coercions into the
byte-offset domain are exact. -/
def stream_song (song? : Option Song) (disk : String → Option (List Nat))
    (range : Option String) : StreamResult :=
  match song? with
  | none => .notFound "Song not found"
  | some song =>
    match disk song.file_path with
    | none => .notFound "Song file not found"
    | some content =>
      let file_size : Int := (content.length : Int)
      let parsed : RangeParse :=
        match range with
        | none => .ok 0 none
        | some r => if r = "" then .ok 0 none else parse_range r.data
      match parsed with
      | .valueError => .badRequest "Invalid range header"
      | .indexError => .internalError
      | .ok s eo =>
        let start : Int := s
        let endv : Int := eo.getD (file_size - 1)
        .ok
          { contentLength := endv - start + 1
            rangeStart := start
            rangeEnd := endv
            rangeTotal := file_size
            body := stream_file content start.toNat (some (endv + 1).toNat) }

/-! ## The duration probe (`try_ffprobe_duration`, songs.py 91-122) and its
caller (`save_upload_file`, songs.py 52-89) -/

/-- The `timeout=15` argument of the `subprocess.run` call (songs.py 100). -/
def FFPROBE_TIMEOUT_SECONDS : Nat := 15

/-- Observable content of the completed subprocess's stdout, as the probe
inspects it: `json.loads` may raise on malformed output; on a parsed
document `data.get('format', {}).get('duration')` yields either nothing
falsy, a string that `float()` rejects, a string whose float value is
non-finite (so `int()` raises `OverflowError`/`ValueError`), or a string
with a finite float value, modelled by its rational value `q`. -/
inductive FfOut where
  | badJson
  | noDuration
  | durNotFloat
  | durNonFinite
  | dur (q : ℚ)
deriving DecidableEq

/-- Outcome of the external `ffprobe` invocation: the tool can be absent
(`FileNotFoundError`), hit the 15-second timeout (`TimeoutExpired`), or
exit with a return code and stdout. -/
inductive ProbeRun where
  | toolMissing
  | timedOut
  | exited (returncode : Int) (out : FfOut)
deriving DecidableEq

/-- The Python exceptions the probe body can raise, matching the three
`except` clauses of songs.py 113-118 (`TimeoutExpired`,
`FileNotFoundError`, and the catch-all `Exception`). -/
inductive PyExc where
  | timeoutExpired
  | fileNotFoundError
  | otherException
deriving DecidableEq

/-- Python `int(float(s))` on a finite float value: truncation toward
zero. -/
def pyTrunc (q : ℚ) : Int :=
  if 0 ≤ q then ⌊q⌋ else ⌈q⌉

/-- The `try` body of `try_ffprobe_duration` (songs.py 93-111): run the
subprocess (which may raise), and on a zero return code parse the JSON and
the duration; `.ok (some d)` is the early `return duration`, `.ok none` is
falling through (non-zero exit, or no/falsy duration field) to the final
`return 0`. -/
def try_ffprobe_body (r : ProbeRun) : Except PyExc (Option Int) :=
  match r with
  | .timedOut => .error .timeoutExpired
  | .toolMissing => .error .fileNotFoundError
  | .exited rc out =>
    if rc = 0 then
      match out with
      | .badJson => .error .otherException
      | .noDuration => .ok none
      | .durNotFloat => .error .otherException
      | .durNonFinite => .error .otherException
      | .dur q => .ok (some (pyTrunc q))
    else .ok none

/-- `try_ffprobe_duration` (songs.py 91-122): the body wrapped in
`except subprocess.TimeoutExpired / except FileNotFoundError /
except Exception`, every clause only printing and falling through to the
final `return 0`. -/
def try_ffprobe_duration (r : ProbeRun) : Int :=
  match try_ffprobe_body r with
  | .ok (some d) => d
  | .ok none => 0
  | .error _ => 0

/-- The tail of `save_upload_file` (songs.py 83-89) once the upload bytes
are saved and validated: probe the duration (printing a warning when it is
0) and return `(file_path, duration)`; no exception of the probe can abort
it, so the result is always a success. -/
def save_upload_file_tail (file_path : String) (r : ProbeRun) :
    Except PyExc (String × Int) :=
  .ok (file_path, try_ffprobe_duration r)

/-! ## Like counters (`like_song` / `unlike_song`, songs.py 469-504) -/

/-- The `Song` record as the like endpoints see it: the `like_count` column
(`models.py` line 69, `Integer, default=0`). -/
structure SongRec where
  like_count : Int
deriving DecidableEq

/-- The state the like endpoints read and write: the looked-up song record
and whether the song is in `current_user.liked_songs`. -/
structure LikeCtx where
  song? : Option SongRec
  liked : Bool
deriving DecidableEq

/-- Result of `POST` / `DELETE /songs/{song_id}/like`: 404 on a missing
song, 400 on a like/unlike that repeats the current state, or the committed
new state and the response message. -/
inductive LikeResult where
  | notFound
  | alreadyLiked
  | notLiked
  | committed (newState : LikeCtx) (message : String)
deriving DecidableEq

/-- `like_song` (songs.py 469-485): 404 if the song is missing, 400 if
already liked, otherwise append to `liked_songs` and `song.like_count += 1`. -/
def like_song (st : LikeCtx) : LikeResult :=
  match st.song? with
  | none => .notFound
  | some s =>
    if st.liked then .alreadyLiked
    else
      .committed
        { song? := some { like_count := s.like_count + 1 }, liked := true }
        "Song liked successfully"

/-- `unlike_song` (songs.py 488-504): 404 if the song is missing, 400 if not
currently liked, otherwise remove from `liked_songs` and
`song.like_count = max(0, song.like_count - 1)`. -/
def unlike_song (st : LikeCtx) : LikeResult :=
  match st.song? with
  | none => .notFound
  | some s =>
    if st.liked then
      .committed
        { song? := some { like_count := max 0 (s.like_count - 1) }, liked := false }
        "Song unliked successfully"
    else .notLiked

/-! ## Concrete fixtures used by witnesses and counterexamples -/

/-- A concrete song record pointing at `song.mp3`. -/
def exSong : Song := { file_path := "song.mp3" }

/-- A concrete disk holding a three-byte file at `song.mp3`. -/
def exDisk : String → Option (List Nat) :=
  fun p => if p = "song.mp3" then some [7, 8, 9] else none

/-- A concrete disk holding a one-byte file at `song.mp3`. -/
def exDisk1 : String → Option (List Nat) :=
  fun p => if p = "song.mp3" then some [7] else none

/-- A concrete empty disk. -/
def exDiskEmpty : String → Option (List Nat) :=
  fun _ => none

/-! ## Basic lemmas about the generator loop -/

/-- Within one loop round, a non-empty read means the cursor is inside the
file. -/
theorem readAt_ne_nil_lt (file : List Nat) (cur n : Nat)
    (h : readAt file cur n ≠ []) : cur < file.length := by
  by_contra hge
  have hd : file.drop cur = [] := List.drop_eq_nil_of_le (by omega)
  simp [readAt, hd] at h

/-- Once the fuel exceeds the number of bytes left in the file, the result
of the loop no longer depends on the fuel. -/
theorem streamLoop_fuel_irrel (file : List Nat) (endExcl : Option Nat) :
    ∀ fuel₁ fuel₂ cur, file.length - cur < fuel₁ → file.length - cur < fuel₂ →
      streamLoop file endExcl fuel₁ cur = streamLoop file endExcl fuel₂ cur := by
  intro fuel₁
  induction fuel₁ with
  | zero => intro fuel₂ cur h₁ h₂; omega
  | succ fuel₁ ih =>
    intro fuel₂ cur h₁ h₂
    match fuel₂ with
    | 0 => omega
    | fuel₂ + 1 =>
      simp only [streamLoop]
      by_cases hend : atEnd endExcl cur
      · simp [hend]
      · simp only [hend, if_false, Bool.false_eq_true]
        by_cases hnil : readAt file cur (reqLen endExcl cur) = []
        · simp [hnil]
        · have hlt := readAt_ne_nil_lt file cur _ hnil
          have hpos : 0 < (readAt file cur (reqLen endExcl cur)).length :=
            List.length_pos.mpr hnil
          simp only [hnil, if_false]
          rw [ih fuel₂ (cur + (readAt file cur (reqLen endExcl cur)).length)
            (by omega) (by omega)]

/-- Unfolding equation for `stream_file`: one loop round. -/
theorem stream_file_unfold (file : List Nat) (cur : Nat) (endExcl : Option Nat) :
    stream_file file cur endExcl =
      if atEnd endExcl cur then []
      else
        let chunk := readAt file cur (reqLen endExcl cur)
        if chunk = [] then []
        else chunk :: stream_file file (cur + chunk.length) endExcl := by
  show streamLoop file endExcl (file.length + 1) cur = _
  conv_lhs => rw [streamLoop]
  by_cases hend : atEnd endExcl cur
  · simp [hend]
  · simp only [hend, if_false, Bool.false_eq_true]
    by_cases hnil : readAt file cur (reqLen endExcl cur) = []
    · simp [hnil]
    · have hlt := readAt_ne_nil_lt file cur _ hnil
      have hpos : 0 < (readAt file cur (reqLen endExcl cur)).length :=
        List.length_pos.mpr hnil
      simp only [hnil, if_false]
      rw [streamLoop_fuel_irrel file endExcl file.length (file.length + 1)
        (cur + (readAt file cur (reqLen endExcl cur)).length) (by omega) (by omega)]
      rfl

/-- Taking a list's own length's worth of a take is the take itself. -/
theorem take_take_length (l : List Nat) (n : Nat) :
    l.take ((l.take n).length) = l.take n := by
  rw [List.length_take]
  rcases Nat.le_total n l.length with h | h
  · rw [Nat.min_eq_left h]
  · rw [Nat.min_eq_right h, List.take_length, List.take_of_length_le h]

/-- The concatenated bytes produced by the loop with an exclusive upper bound
`e` are exactly the file's bytes at offsets `[cur, e)`. -/
theorem streamLoop_join (file : List Nat) (e : Nat) :
    ∀ fuel cur, file.length - cur < fuel →
      (streamLoop file (some e) fuel cur).flatten = (file.drop cur).take (e - cur) := by
  intro fuel
  induction fuel with
  | zero => intro cur h; omega
  | succ fuel ih =>
    intro cur h
    simp only [streamLoop]
    by_cases hend : atEnd (some e) cur
    · have he : e ≤ cur := by simpa [atEnd] using hend
      have : e - cur = 0 := by omega
      simp [hend, this]
    · have hcur : cur < e := by
        by_contra hc
        exact hend (by simp [atEnd]; omega)
      by_cases hnil : readAt file cur (reqLen (some e) cur) = []
      · have hdrop : file.drop cur = [] := by
          have hreq : 0 < reqLen (some e) cur := by
            have hCS : 0 < CHUNK_SIZE := by norm_num [CHUNK_SIZE]
            simp only [reqLen]
            omega
          rcases (List.take_eq_nil_iff).mp hnil with h0 | h0
          · omega
          · exact h0
        simp [hend, hnil, hdrop]
      · have hlt := readAt_ne_nil_lt file cur _ hnil
        set chunk := readAt file cur (reqLen (some e) cur) with hchunk
        have hpos : 0 < chunk.length := List.length_pos.mpr hnil
        have hlen : chunk.length = min (min CHUNK_SIZE (e - cur)) (file.length - cur) := by
          simp [hchunk, readAt, reqLen, List.length_take, List.length_drop]
        have hrec := ih (cur + chunk.length) (by omega)
        simp only [hend, if_false, hnil, ite_false, Bool.false_eq_true]
        rw [List.flatten_cons, hrec]
        have hLle : chunk.length ≤ e - cur := by omega
        have hsplit : e - cur = chunk.length + (e - (cur + chunk.length)) := by omega
        rw [hsplit, List.take_add]
        congr 1
        · rw [hchunk]
          show readAt file cur (reqLen (some e) cur)
            = (file.drop cur).take (readAt file cur (reqLen (some e) cur)).length
          rw [readAt, take_take_length]
        · rw [List.drop_drop]

/-- The concatenated bytes of `stream_file` with an exclusive bound `e` are
the file's bytes at offsets `[cur, e)`. -/
theorem stream_file_join (file : List Nat) (cur e : Nat) :
    (stream_file file cur (some e)).flatten = (file.drop cur).take (e - cur) :=
  streamLoop_join file e (file.length + 1) cur (by omega)

/-- Every chunk of a run with exclusive bound `E` is a contiguous slice of
the file lying at offsets in `[cur, E)`. -/
theorem isStream_chunk_bounds (file : List Nat) (E : Nat) :
    ∀ cur chunks, IsStream file (some E) cur chunks →
      ∀ c ∈ chunks, ∃ off, cur ≤ off ∧ off + c.length ≤ E ∧
        c = (file.drop off).take c.length := by
  intro cur chunks h
  induction h with
  | stop cur h => intro c hc; simp at hc
  | eof cur k hk h => intro c hc; simp at hc
  | step cur k hend hk hne rest hrest ih =>
    intro c hc
    rcases List.mem_cons.mp hc with hc | hc
    · subst hc
      refine ⟨cur, le_rfl, ?_, ?_⟩
      · have h1 : (readAt file cur k).length ≤ k := by
          simp [readAt, List.length_take, List.length_drop]
        have h2 : k ≤ min CHUNK_SIZE (E - cur) := hk
        have h3 : cur < E := by
          by_contra hc3
          simp [atEnd] at hend
          omega
        omega
      · show readAt file cur k = (file.drop cur).take (readAt file cur k).length
        rw [readAt, take_take_length]
    · obtain ⟨off, h1, h2, h3⟩ := ih c hc
      exact ⟨off, by omega, h2, h3⟩

/-- The deterministic complete run computed by `stream_file` is one of the
runs described by `IsStream`, provided the loop is given the exclusive bound
it is called with by the endpoint. -/
theorem stream_file_isStream (file : List Nat) (endExcl : Option Nat) :
    ∀ fuel cur, file.length - cur < fuel →
      IsStream file endExcl cur (streamLoop file endExcl fuel cur) := by
  intro fuel
  induction fuel with
  | zero => intro cur h; omega
  | succ fuel ih =>
    intro cur h
    rw [streamLoop]
    by_cases hend : atEnd endExcl cur
    · simp only [hend, if_true]
      exact IsStream.stop cur hend
    · simp only [hend, if_false, Bool.false_eq_true]
      by_cases hnil : readAt file cur (reqLen endExcl cur) = []
      · simp only [hnil, ite_true]
        exact IsStream.eof cur (reqLen endExcl cur) le_rfl hnil
      · have hlt := readAt_ne_nil_lt file cur _ hnil
        have hpos : 0 < (readAt file cur (reqLen endExcl cur)).length :=
          List.length_pos.mpr hnil
        simp only [hnil, ite_false]
        exact IsStream.step cur (reqLen endExcl cur)
          (by simpa using hend) le_rfl hnil _
          (ih (cur + (readAt file cur (reqLen endExcl cur)).length) (by omega))

/-- Every chunk requested by the loop has at most `reqLen ≤ CHUNK_SIZE`
bytes, whatever the bound. -/
theorem streamLoop_chunk_le (file : List Nat) (endExcl : Option Nat) :
    ∀ fuel cur c, c ∈ streamLoop file endExcl fuel cur →
      c.length ≤ CHUNK_SIZE := by
  intro fuel
  induction fuel with
  | zero => intro cur c hc; simp [streamLoop] at hc
  | succ fuel ih =>
    intro cur c hc
    rw [streamLoop] at hc
    by_cases hend : atEnd endExcl cur
    · simp [hend] at hc
    · simp only [hend, if_false, Bool.false_eq_true] at hc
      by_cases hnil : readAt file cur (reqLen endExcl cur) = []
      · simp [hnil] at hc
      · simp only [hnil, ite_false] at hc
        rcases List.mem_cons.mp hc with hc | hc
        · subst hc
          have h1 : (readAt file cur (reqLen endExcl cur)).length
              ≤ reqLen endExcl cur := by
            simp [readAt, List.length_take, List.length_drop]
          have h2 : reqLen endExcl cur ≤ CHUNK_SIZE := by
            unfold reqLen
            match endExcl with
            | some e => exact Nat.min_le_left _ _
            | none => exact le_rfl
          omega
        · exact ih _ c hc

/-! ## Computation lemmas for the endpoint -/

/-- An empty range value never parses: the single empty part makes
`int(range_header[0])` raise `ValueError`. -/
theorem parse_range_empty : parse_range ("" : String).data = .valueError := rfl

/-- When the range value parses to `(s, eo)`, the endpoint responds with the
headers and body built from `start = s` and `end = eo` (default
`file_size - 1`). -/
theorem stream_song_parsed (song : Song) (disk : String → Option (List Nat))
    (content : List Nat) (r : String) (s : Int) (eo : Option Int)
    (hdisk : disk song.file_path = some content)
    (hparse : parse_range r.data = .ok s eo) :
    stream_song (some song) disk (some r) =
      .ok
        { contentLength := (eo.getD ((content.length : Int) - 1)) - s + 1
          rangeStart := s
          rangeEnd := eo.getD ((content.length : Int) - 1)
          rangeTotal := (content.length : Int)
          body := stream_file content s.toNat
            (some ((eo.getD ((content.length : Int) - 1)) + 1).toNat) } := by
  have hne : r ≠ "" := by
    intro h
    rw [h, parse_range_empty] at hparse
    cases hparse
  simp only [stream_song, hdisk, if_neg hne, hparse]

/-- When the range value makes `int()` raise `ValueError`, the endpoint
responds 400 "Invalid range header". -/
theorem stream_song_valueError (song : Song) (disk : String → Option (List Nat))
    (content : List Nat) (r : String)
    (hdisk : disk song.file_path = some content) (hne : r ≠ "")
    (hparse : parse_range r.data = .valueError) :
    stream_song (some song) disk (some r) = .badRequest "Invalid range header" := by
  simp only [stream_song, hdisk, if_neg hne, hparse]

/-- When the range value raises the uncaught `IndexError`, the endpoint
fails with an unhandled exception (a 500 server error). -/
theorem stream_song_indexError (song : Song) (disk : String → Option (List Nat))
    (content : List Nat) (r : String)
    (hdisk : disk song.file_path = some content) (hne : r ≠ "")
    (hparse : parse_range r.data = .indexError) :
    stream_song (some song) disk (some r) = .internalError := by
  simp only [stream_song, hdisk, if_neg hne, hparse]

/-- C7: for every streaming request, a missing song record gives
`NotFound` with detail "Song not found", and an existing record whose
backing file is absent gives `NotFound` with detail "Song file not found" —
distinguished details, same 404 status kind — regardless of the range
value, and in neither case is a `StreamingResponse` (headers or body)
produced. -/
theorem stream_song_not_found :
    (∀ (disk : String → Option (List Nat)) (range : Option String),
        stream_song none disk range = .notFound "Song not found") ∧
    (∀ (song : Song) (disk : String → Option (List Nat)) (range : Option String),
        disk song.file_path = none →
        stream_song (some song) disk range = .notFound "Song file not found") := by
  constructor
  · intro disk range
    rfl
  · intro song disk range h
    simp only [stream_song, h]

theorem stream_song_not_found_witness :
    stream_song none exDiskEmpty (some "bytes=0-99") = .notFound "Song not found" ∧
    stream_song (some exSong) exDiskEmpty (some "bytes=0-99")
      = .notFound "Song file not found" :=
  ⟨stream_song_not_found.1 exDiskEmpty (some "bytes=0-99"),
   stream_song_not_found.2 exSong exDiskEmpty (some "bytes=0-99") rfl⟩

/-- C4: for every valid asset requested with no range value, the
`Content-Length` is the file's size, the other headers are
`bytes 0-(size-1)/size`, and the concatenation of the yielded chunks is
exactly the file's content (round-trip identity). -/
theorem stream_full_file_roundtrip (song : Song)
    (disk : String → Option (List Nat)) (content : List Nat)
    (hdisk : disk song.file_path = some content) :
    stream_song (some song) disk none =
      .ok
        { contentLength := (content.length : Int)
          rangeStart := 0
          rangeEnd := (content.length : Int) - 1
          rangeTotal := (content.length : Int)
          body := stream_file content 0 (some content.length) } ∧
    (stream_file content 0 (some content.length)).flatten = content := by
  constructor
  · simp only [stream_song, hdisk, Option.getD_none]
    rw [show ((content.length : Int) - 1 + 1).toNat = content.length by omega]
    norm_num
  · rw [stream_file_join]
    simp

theorem stream_full_file_roundtrip_witness :
    stream_song (some exSong) exDisk none =
      .ok
        { contentLength := 3
          rangeStart := 0
          rangeEnd := 2
          rangeTotal := 3
          body := stream_file [7, 8, 9] 0 (some 3) } ∧
    (stream_file [7, 8, 9] 0 (some 3)).flatten = [7, 8, 9] :=
  stream_full_file_roundtrip exSong exDisk [7, 8, 9] rfl

/-- C1 (amended): a non-empty range value on which `int()` raises
`ValueError` (non-numeric bounds, with at least one dash present, e.g.
`bytes=abc-def`) makes the handler fail with `BadRequest` (400); but a
range value whose dash-split yields a single part with a numeric first
bound (no dash, e.g. `bytes=100`) raises an uncaught `IndexError`,
surfacing as a server error rather than `BadRequest`.  The model is pure,
so the asset and file state are untouched in either case. -/
theorem malformed_range_handling (song : Song)
    (disk : String → Option (List Nat)) (content : List Nat) (r : String)
    (hdisk : disk song.file_path = some content) :
    (parse_range r.data = .valueError → r ≠ "" →
      stream_song (some song) disk (some r) = .badRequest "Invalid range header") ∧
    (parse_range r.data = .indexError →
      stream_song (some song) disk (some r) = .internalError) := by
  constructor
  · intro hp hne
    exact stream_song_valueError song disk content r hdisk hne hp
  · intro hp
    have hne : r ≠ "" := by
      intro h
      rw [h, parse_range_empty] at hp
      cases hp
    exact stream_song_indexError song disk content r hdisk hne hp

theorem malformed_range_handling_witness :
    stream_song (some exSong) exDisk (some "bytes=abc-def")
      = .badRequest "Invalid range header" ∧
    stream_song (some exSong) exDisk (some "bytes=100") = .internalError :=
  ⟨(malformed_range_handling exSong exDisk [7, 8, 9] "bytes=abc-def" rfl).1
      rfl (by decide),
   (malformed_range_handling exSong exDisk [7, 8, 9] "bytes=100" rfl).2 rfl⟩

/-- C1, counterexample to the claim as stated: the range value `bytes=100`
is malformed (its bounds are missing the dash), yet the handler does not
fail with `BadRequest` — the uncaught `IndexError` surfaces as a server
error. -/
theorem malformed_range_counterexample :
    stream_song (some exSong) exDisk (some "bytes=100") = .internalError ∧
    StreamResult.internalError ≠ .badRequest "Invalid range header" :=
  ⟨rfl, by decide⟩

/-- C2 (amended): for a parsed range whose end is at least the file size,
the headers use the unclamped end (`Content-Length = end - start + 1`,
`Content-Range: bytes start-end/size`) while the body holds only the bytes
from `start` to end-of-file; whenever additionally `start ≤ size`, the
stated `Content-Length` strictly exceeds the number of body bytes (for
`start > size` the body is empty and the stated `Content-Length` can be
non-positive, which is the corner the original claim misses). -/
theorem unclamped_range_end (song : Song) (disk : String → Option (List Nat))
    (content : List Nat) (r : String) (s e : Int)
    (hdisk : disk song.file_path = some content)
    (hparse : parse_range r.data = .ok s (some e))
    (hs : 0 ≤ s) (he : (content.length : Int) ≤ e) :
    stream_song (some song) disk (some r) =
      .ok
        { contentLength := e - s + 1
          rangeStart := s
          rangeEnd := e
          rangeTotal := (content.length : Int)
          body := stream_file content s.toNat (some (e + 1).toNat) } ∧
    (stream_file content s.toNat (some (e + 1).toNat)).flatten
      = content.drop s.toNat ∧
    (s ≤ (content.length : Int) →
      ((stream_file content s.toNat (some (e + 1).toNat)).flatten.length : Int)
        < e - s + 1) := by
  have hmain := stream_song_parsed song disk content r s (some e) hdisk hparse
  have hflat : (stream_file content s.toNat (some (e + 1).toNat)).flatten
      = content.drop s.toNat := by
    rw [stream_file_join]
    apply List.take_of_length_le
    simp only [List.length_drop]
    omega
  refine ⟨by simpa using hmain, hflat, ?_⟩
  intro hsle
  rw [hflat]
  simp only [List.length_drop]
  omega

theorem unclamped_range_end_witness :
    stream_song (some exSong) exDisk (some "bytes=1-5") =
      .ok
        { contentLength := 5
          rangeStart := 1
          rangeEnd := 5
          rangeTotal := 3
          body := stream_file [7, 8, 9] 1 (some 6) } ∧
    (stream_file [7, 8, 9] 1 (some 6)).flatten = [8, 9] ∧
    ((stream_file [7, 8, 9] 1 (some 6)).flatten.length : Int) < 5 := by
  have h := unclamped_range_end exSong exDisk [7, 8, 9] "bytes=1-5" 1 5 rfl rfl
    (by decide) (by decide)
  exact ⟨h.1, h.2.1, h.2.2 (by decide)⟩

/-- C2, counterexample to the claim as stated: on a one-byte file the
parsed range `bytes=5-2` has an end (2) exceeding `total_size - 1` (0), the
headers use the unclamped values, the body is empty — but the stated
`Content-Length` is `-2`, which does not exceed the 0 bytes actually
produced. -/
theorem unclamped_range_counterexample :
    stream_song (some exSong) exDisk1 (some "bytes=5-2") =
      .ok
        { contentLength := -2
          rangeStart := 5
          rangeEnd := 2
          rangeTotal := 1
          body := [] } ∧
    (1 : Int) - 1 < 2 ∧
    ¬ ((([] : List (List Nat)).flatten.length : Int) < -2) :=
  ⟨rfl, by decide, by decide⟩

/-- C5: for every valid asset and parsed closed range with
`0 ≤ start ≤ end < total_size`, the body is exactly the
`end - start + 1` bytes at offsets `[start, end]` of the file and the
`Content-Range` fields are `start`, `end`, `total_size`. -/
theorem stream_closed_range_exact (song : Song)
    (disk : String → Option (List Nat)) (content : List Nat) (r : String)
    (s e : Int) (hdisk : disk song.file_path = some content)
    (hparse : parse_range r.data = .ok s (some e))
    (hs : 0 ≤ s) (hse : s ≤ e) (he : e < (content.length : Int)) :
    stream_song (some song) disk (some r) =
      .ok
        { contentLength := e - s + 1
          rangeStart := s
          rangeEnd := e
          rangeTotal := (content.length : Int)
          body := stream_file content s.toNat (some (e + 1).toNat) } ∧
    (stream_file content s.toNat (some (e + 1).toNat)).flatten
      = (content.drop s.toNat).take (e.toNat - s.toNat + 1) ∧
    ((stream_file content s.toNat (some (e + 1).toNat)).flatten.length : Int)
      = e - s + 1 := by
  have hmain := stream_song_parsed song disk content r s (some e) hdisk hparse
  have hflat : (stream_file content s.toNat (some (e + 1).toNat)).flatten
      = (content.drop s.toNat).take (e.toNat - s.toNat + 1) := by
    rw [stream_file_join]
    congr 1
    omega
  refine ⟨by simpa using hmain, hflat, ?_⟩
  rw [hflat]
  simp only [List.length_take, List.length_drop]
  omega

theorem stream_closed_range_exact_witness :
    stream_song (some exSong) exDisk (some "bytes=0-1") =
      .ok
        { contentLength := 2
          rangeStart := 0
          rangeEnd := 1
          rangeTotal := 3
          body := stream_file [7, 8, 9] 0 (some 2) } ∧
    (stream_file [7, 8, 9] 0 (some 2)).flatten = [7, 8] ∧
    ((stream_file [7, 8, 9] 0 (some 2)).flatten.length : Int) = 2 := by
  have h := stream_closed_range_exact exSong exDisk [7, 8, 9] "bytes=0-1" 0 1
    rfl rfl (by decide) (by decide) (by decide)
  exact ⟨h.1, h.2.1, h.2.2⟩

/-- C6: for every valid asset and parsed open-ended range `bytes=<start>-`
with `start < total_size`, the end defaults to `total_size - 1` and the
body is exactly the bytes from `start` to end-of-file. -/
theorem stream_open_range_to_eof (song : Song)
    (disk : String → Option (List Nat)) (content : List Nat) (r : String)
    (s : Int) (hdisk : disk song.file_path = some content)
    (hparse : parse_range r.data = .ok s none)
    (hs : 0 ≤ s) (hlt : s < (content.length : Int)) :
    stream_song (some song) disk (some r) =
      .ok
        { contentLength := ((content.length : Int) - 1) - s + 1
          rangeStart := s
          rangeEnd := (content.length : Int) - 1
          rangeTotal := (content.length : Int)
          body := stream_file content s.toNat
            (some (((content.length : Int) - 1) + 1).toNat) } ∧
    (stream_file content s.toNat
        (some (((content.length : Int) - 1) + 1).toNat)).flatten
      = content.drop s.toNat := by
  have hmain := stream_song_parsed song disk content r s none hdisk hparse
  refine ⟨by simpa using hmain, ?_⟩
  rw [stream_file_join]
  apply List.take_of_length_le
  simp only [List.length_drop]
  omega

theorem stream_open_range_to_eof_witness :
    stream_song (some exSong) exDisk (some "bytes=1-") =
      .ok
        { contentLength := 2
          rangeStart := 1
          rangeEnd := 2
          rangeTotal := 3
          body := stream_file [7, 8, 9] 1 (some 3) } ∧
    (stream_file [7, 8, 9] 1 (some 3)).flatten = [8, 9] := by
  have h := stream_open_range_to_eof exSong exDisk [7, 8, 9] "bytes=1-" 1
    rfl rfl (by decide) (by decide)
  exact ⟨h.1, h.2⟩

/-- C3: for every file, start offset and requested inclusive end `e`, every
chunk yielded by the generator called with exclusive bound `e + 1` — under
any chunking of the reads (`IsStream`), in particular the deterministic
complete run `stream_file` — is a contiguous slice of the file whose
offsets lie within `[start, e]`; no byte beyond the requested range is ever
transmitted. -/
theorem stream_range_byte_bounds (file : List Nat) (start e : Nat)
    (chunks : List (List Nat))
    (h : IsStream file (some (e + 1)) start chunks ∨
         chunks = stream_file file start (some (e + 1)))
    (c : List Nat) (hc : c ∈ chunks) :
    ∃ off, start ≤ off ∧ off + c.length ≤ e + 1 ∧
      c = (file.drop off).take c.length := by
  rcases h with h | h
  · exact isStream_chunk_bounds file (e + 1) start chunks h c hc
  · subst h
    exact isStream_chunk_bounds file (e + 1) start _
      (stream_file_isStream file (some (e + 1)) (file.length + 1) start
        (by omega)) c hc

theorem stream_range_byte_bounds_witness :
    [8] ∈ stream_file [7, 8, 9] 1 (some 2) ∧
    ∃ off, 1 ≤ off ∧ off + ([8] : List Nat).length ≤ 2 ∧
      ([8] : List Nat) = (([7, 8, 9] : List Nat).drop off).take
        ([8] : List Nat).length :=
  ⟨by decide,
   stream_range_byte_bounds [7, 8, 9] 1 1 (stream_file [7, 8, 9] 1 (some 2))
     (Or.inr rfl) [8] (by decide)⟩

/-- C9: every chunk yielded by the streaming generator — whatever the file,
start offset and bound — holds at most `CHUNK_SIZE = 1024 * 1024` bytes, so
the memory materialized per read step is bounded by the chunk size and
never by the file size. -/
theorem stream_chunk_size_bound (file : List Nat) (cur : Nat)
    (endExcl : Option Nat) (c : List Nat)
    (hc : c ∈ stream_file file cur endExcl) : c.length ≤ CHUNK_SIZE :=
  streamLoop_chunk_le file endExcl (file.length + 1) cur c hc

theorem stream_chunk_size_bound_witness :
    [7, 8, 9] ∈ stream_file [7, 8, 9] 0 (some 3) ∧
    ([7, 8, 9] : List Nat).length ≤ CHUNK_SIZE :=
  ⟨by decide,
   stream_chunk_size_bound [7, 8, 9] 0 (some 3) [7, 8, 9] (by decide)⟩

/-- C8: for every outcome of the external probe subprocess, the duration
probe never lets an exception escape: a successful probe (zero exit with a
finite duration value `q`) returns `q` truncated to whole seconds, every
other outcome — tool missing, timeout, non-zero exit, malformed or
unparsable JSON, missing or malformed duration — returns the sentinel 0;
every exception the body raises is caught and mapped to 0; and the
`save_upload_file` tail proceeds to a success carrying the probed duration
in every case. -/
theorem ffprobe_no_throw (r : ProbeRun) :
    (∀ q : ℚ, r = .exited 0 (.dur q) → try_ffprobe_duration r = pyTrunc q) ∧
    (try_ffprobe_duration r = 0 ∨ ∃ q : ℚ, r = .exited 0 (.dur q)) ∧
    (∀ e : PyExc, try_ffprobe_body r = .error e → try_ffprobe_duration r = 0) ∧
    (∀ path : String,
      save_upload_file_tail path r = .ok (path, try_ffprobe_duration r)) := by
  refine ⟨?_, ?_, ?_, fun path => rfl⟩
  · rintro q rfl
    simp [try_ffprobe_duration, try_ffprobe_body]
  · match r with
    | .timedOut => exact .inl rfl
    | .toolMissing => exact .inl rfl
    | .exited rc out =>
      by_cases hrc : rc = 0
      · subst hrc
        match out with
        | .badJson => exact .inl rfl
        | .noDuration => exact .inl rfl
        | .durNotFloat => exact .inl rfl
        | .durNonFinite => exact .inl rfl
        | .dur q => exact .inr ⟨q, rfl⟩
      · exact .inl (by simp [try_ffprobe_duration, try_ffprobe_body, hrc])
  · intro e he
    simp [try_ffprobe_duration, he]

theorem ffprobe_no_throw_witness :
    try_ffprobe_duration (.exited 0 (.dur (7 / 2))) = pyTrunc (7 / 2) ∧
    try_ffprobe_duration ProbeRun.timedOut = 0 ∧
    save_upload_file_tail "uploads/songs/a.mp3" ProbeRun.timedOut
      = .ok ("uploads/songs/a.mp3", try_ffprobe_duration ProbeRun.timedOut) :=
  ⟨(ffprobe_no_throw (.exited 0 (.dur (7 / 2)))).1 (7 / 2) rfl,
   (ffprobe_no_throw ProbeRun.timedOut).2.2.1 .timeoutExpired rfl,
   (ffprobe_no_throw ProbeRun.timedOut).2.2.2 "uploads/songs/a.mp3"⟩

/-- C10: starting from a song with a non-negative `like_count`, `like_song`
on a song the user has not liked commits exactly `like_count + 1`,
`unlike_song` on a liked song commits exactly `max 0 (like_count - 1)`,
both results are non-negative, and every committed like/unlike outcome
preserves the invariant `like_count ≥ 0`. -/
theorem like_count_nonneg (s : SongRec) (h : 0 ≤ s.like_count) :
    (like_song { song? := some s, liked := false }
        = .committed
            { song? := some { like_count := s.like_count + 1 }, liked := true }
            "Song liked successfully"
      ∧ 0 ≤ s.like_count + 1) ∧
    (unlike_song { song? := some s, liked := true }
        = .committed
            { song? := some { like_count := max 0 (s.like_count - 1) },
              liked := false }
            "Song unliked successfully"
      ∧ 0 ≤ max 0 (s.like_count - 1)) ∧
    (∀ (st st' : LikeCtx) (m : String),
      (like_song st = .committed st' m ∨ unlike_song st = .committed st' m) →
      (∀ t, st.song? = some t → 0 ≤ t.like_count) →
      ∀ t', st'.song? = some t' → 0 ≤ t'.like_count) := by
  refine ⟨⟨rfl, by omega⟩, ⟨rfl, le_max_left 0 _⟩, ?_⟩
  rintro ⟨song?, liked⟩ st' m (hop | hop) hpre t' ht'
  · cases song? with
    | none => simp [like_song] at hop
    | some t =>
      cases liked with
      | true => simp [like_song] at hop
      | false =>
        simp only [like_song, LikeResult.committed.injEq] at hop
        obtain ⟨rfl, rfl⟩ := hop
        injection ht' with ht2
        rw [← ht2]
        have := hpre t rfl
        show 0 ≤ t.like_count + 1
        omega
  · cases song? with
    | none => simp [unlike_song] at hop
    | some t =>
      cases liked with
      | false => simp [unlike_song] at hop
      | true =>
        simp only [unlike_song, LikeResult.committed.injEq] at hop
        obtain ⟨rfl, rfl⟩ := hop
        injection ht' with ht2
        rw [← ht2]
        show 0 ≤ max 0 (t.like_count - 1)
        exact le_max_left 0 _

theorem like_count_nonneg_witness :
    (like_song { song? := some { like_count := 3 }, liked := false }
        = .committed
            { song? := some { like_count := 4 }, liked := true }
            "Song liked successfully"
      ∧ (0 : Int) ≤ 3 + 1) ∧
    (unlike_song { song? := some { like_count := 3 }, liked := true }
        = .committed
            { song? := some { like_count := max 0 (3 - 1) }, liked := false }
            "Song unliked successfully"
      ∧ (0 : Int) ≤ max 0 (3 - 1)) :=
  ⟨(like_count_nonneg { like_count := 3 } (by decide)).1,
   (like_count_nonneg { like_count := 3 } (by decide)).2.1⟩

end Muza
